import Mathlib

/-!
Verification development for the easy-cancelable-promise repository.

The embedding below translates the repository's source into Lean:

* `src/_shared/index.ts` — the `promise_identifier` symbol and
  `isCancelablePromise`, embedded over a small model of JavaScript values
  with symbol-keyed properties, null/undefined, optional chaining and
  boolean coercion.
* `src/utils/tryCatch/tryCatch.ts` — `tryCatch` and `tryCatchPromise`,
  embedded over a model of synchronous call results and of the awaited
  settlement of cancelable promises.
* The `CancelablePromise` class and the group scheduler
  `groupAsCancelablePromise` appear in the repository only as `.d.ts`
  declarations (their implementation files are not present); the
  definitions for them are modelled from the specification, as marked in
  their doc comments.
-/

/-! ## JavaScript value model (for src/_shared/index.ts) -/

/-- Model of a JavaScript symbol. `Symbol(description)` returns a fresh
symbol on every evaluation; freshness is modelled by the numeric `id`:
two symbols are the same value exactly when they have the same `id`
(the description plays no role in identity, it is kept for fidelity). -/
structure JSSymbol where
  id : Nat
  description : String
deriving DecidableEq

/-- Model of the JavaScript values relevant to `isCancelablePromise`:
null, undefined, primitives, and objects carrying symbol-keyed
properties. Numbers are modelled as integers (NaN is not needed by any
claim). -/
inductive JSValue where
  | undefined : JSValue
  | null : JSValue
  | bool (b : Bool) : JSValue
  | num (n : Int) : JSValue
  | str (s : String) : JSValue
  | obj (symProps : List (JSSymbol × JSValue)) : JSValue

/-- Result of evaluating a JavaScript expression: a value, or a thrown
runtime error (carrying its message). -/
inductive EvalResult (α : Type) where
  | ok (v : α) : EvalResult α
  | jsError (msg : String) : EvalResult α
deriving DecidableEq

/-- Lookup of a symbol key in an object's property list (first match). -/
def findSym : List (JSSymbol × JSValue) → JSSymbol → Option JSValue
  | [], _ => none
  | (k, v) :: rest, key => if k = key then some v else findSym rest key

/-- JavaScript boolean coercion, as performed by `!!e`: null, undefined,
false, 0 and the empty string are falsy; every object is truthy. -/
def truthy : JSValue → Bool
  | .undefined => false
  | .null => false
  | .bool b => b
  | .num n => n != 0
  | .str s => s != ""
  | .obj _ => true

/-- Plain member access `v[key]` for a symbol key: throws a TypeError on
null/undefined, yields undefined for an absent property or on a
primitive (which boxes to an object without the symbol). -/
def jsGetSym (v : JSValue) (key : JSSymbol) : EvalResult JSValue :=
  match v with
  | .null => .jsError "TypeError: Cannot read properties of null"
  | .undefined => .jsError "TypeError: Cannot read properties of undefined"
  | .obj props =>
      match findSym props key with
      | some w => .ok w
      | none => .ok .undefined
  | _ => .ok .undefined

/-- Optional-chaining member access `v?.[key]`: short-circuits to
undefined when `v` is null or undefined, otherwise behaves as plain
member access. -/
def jsGetSymOpt (v : JSValue) (key : JSSymbol) : EvalResult JSValue :=
  match v with
  | .null => .ok .undefined
  | .undefined => .ok .undefined
  | _ => jsGetSym v key

/-- The marker from src/_shared/index.ts:
`export const promise_identifier = Symbol('promise_identifier')`.
The module-level `Symbol(...)` call runs once per loaded copy of the
library, producing a fresh symbol each time; `copy` indexes the loaded
copy, and distinct copies obtain distinct symbols. -/
def promise_identifier (copy : Nat) : JSSymbol :=
  ⟨copy, "promise_identifier"⟩

/-- Embedding of src/_shared/index.ts lines 3-5, for the library copy
`copy`: `isCancelablePromise = (source) => !!source?.[promise_identifier]`. -/
def isCancelablePromise (copy : Nat) (source : JSValue) : EvalResult Bool :=
  match jsGetSymOpt source (promise_identifier copy) with
  | .ok v => .ok (truthy v)
  | .jsError m => .jsError m

/-- Whether a value carries a truthy property at copy `copy`'s marker
symbol (the pure predicate the guarded check computes). -/
def hasMarker (copy : Nat) (v : JSValue) : Bool :=
  match v with
  | .obj props =>
      match findSym props (promise_identifier copy) with
      | some w => truthy w
      | none => false
  | _ => false

/-- Modelled from the spec: the `CancelablePromise` class implementation
is not under src (only its .d.ts declaration is); per the spec every
instance produced by a copy's constructors/statics carries that copy's
marker symbol as a truthy property. -/
def mkCancelableInstance (copy : Nat) : JSValue :=
  .obj [(promise_identifier copy, .bool true)]

/-- A plain native promise object: an ordinary object carrying no
library marker symbol. -/
def nativePromiseObj : JSValue := .obj []

/-- An arbitrary object unrelated to the library (some other symbol
property). -/
def arbitraryObj : JSValue := .obj [(⟨999, "something_else"⟩, .num 1)]

/-! ## Cancelable-future settlement state machine

The `CancelablePromise` class implementation is not under src; only its
declaration file is. The state machine below is modelled from the spec
(sections 3, 4.1 and 7). -/

/-- The four statuses declared in the repository's .d.ts:
`type TPromiseStatus = 'canceled' | 'pending' | 'resolved' | 'rejected'`. -/
inductive TPromiseStatus where
  | pending : TPromiseStatus
  | resolved : TPromiseStatus
  | rejected : TPromiseStatus
  | canceled : TPromiseStatus
deriving DecidableEq

/-- Settlement of the underlying awaitable: exactly one of a resolved
value or a rejection reason (a cancellation settles the underlying
awaitable as rejected with the cancellation reason). -/
inductive Settlement (α : Type) where
  | value (v : α) : Settlement α
  | rejectedWith (r : α) : Settlement α
deriving DecidableEq

/-- A settling call on one future: `resolve(value)`, `reject(reason)` or
`cancel(reason)`. -/
inductive SettleOp (α : Type) where
  | resolve (v : α) : SettleOp α
  | reject (r : α) : SettleOp α
  | cancel (r : α) : SettleOp α
deriving DecidableEq

/-- Modelled from the spec: the state of one cancelable future — its
`status` field and the settlement of the underlying awaitable
(`none` while pending). The implementation of `CancelablePromise` is
missing from src; fields follow spec section 3. -/
structure FutureState (α : Type) where
  status : TPromiseStatus
  settlement : Option (Settlement α)
deriving DecidableEq

/-- A freshly constructed future: pending, underlying awaitable
unsettled. -/
def initialFuture (α : Type) : FutureState α := ⟨.pending, none⟩

/-- Modelled from the spec: one settling call on a future
(spec section 4.1). `resolve`/`reject`/`cancel` are no-ops once the
future is settled; from pending, `resolve v` sets status resolved and
settles with `v`; `reject r` sets status rejected and settles as
rejected with `r`; `cancel r` sets status canceled and settles the
underlying awaitable as rejected with `r` (so a catch handler observes
`r`) while the status reads canceled. -/
def applyOp (s : FutureState α) (op : SettleOp α) : FutureState α :=
  if s.status = .pending then
    match op with
    | .resolve v => ⟨.resolved, some (.value v)⟩
    | .reject r => ⟨.rejected, some (.rejectedWith r)⟩
    | .cancel r => ⟨.canceled, some (.rejectedWith r)⟩
  else s

/-- A sequence of settling calls applied in order. -/
def applyOps (s : FutureState α) (ops : List (SettleOp α)) : FutureState α :=
  ops.foldl applyOp s

/-- The terminal status a settling call produces when it fires from
pending. -/
def terminalOf : SettleOp α → TPromiseStatus
  | .resolve _ => .resolved
  | .reject _ => .rejected
  | .cancel _ => .canceled

/-- What a catch handler attached to the future receives: the rejection
reason of the underlying awaitable, if it settled rejected. -/
def catchObserves (s : FutureState α) : Option α :=
  match s.settlement with
  | some (.rejectedWith r) => some r
  | _ => none

/-! ## Derivation-chain cancellation

Modelled from the spec (sections 3, 4.1, 4.2): all futures derived from
one another through continuation operators share one cancellation set;
`cancel` on any member cancels every member and fires every member's own
cancel callbacks. The implementation is missing from src. -/

/-- One member of a derivation chain: its status and its own cancel
callbacks, identified by numeric ids, in registration order. -/
structure ChainMember where
  status : TPromiseStatus
  ownCancelCallbacks : List Nat
deriving DecidableEq

/-- A derivation chain: its members in chain-linkage order (parents
before the children derived from them). -/
structure Chain where
  members : List ChainMember
deriving DecidableEq

/-- A member with status canceled and its own cancel callbacks cleared
(spec section 3: own callbacks are invoked once, then cleared). -/
def canceledMember (_m : ChainMember) : ChainMember := ⟨.canceled, []⟩

/-- The invocation log produced by a chain-wide cancel with reason `r`:
every member's own callbacks, members in chain-linkage order and
callbacks in registration order, each paired with `r`. -/
def chainCancelLog (c : Chain) (r : α) : List (Nat × α) :=
  ((c.members.map ChainMember.ownCancelCallbacks).flatten).map (fun cb => (cb, r))

/-- Modelled from the spec: `cancel(reason)` called on chain member `i`
(spec sections 3 and 4.1). A no-op when that member is already settled;
otherwise every chain member's status becomes canceled, every member's
own cancel callbacks run once with the reason and are cleared. Returns
the updated chain and the callback-invocation log. -/
def cancelChain (c : Chain) (i : Nat) (r : α) : Chain × List (Nat × α) :=
  match c.members.get? i with
  | none => (c, [])
  | some m =>
      if m.status = .pending then
        (⟨c.members.map canceledMember⟩, chainCancelLog c r)
      else (c, [])

/-- The multiset of cancel callbacks registered anywhere in the chain,
flattened in chain-linkage and registration order. -/
def registeredCallbacks (c : Chain) : List Nat :=
  (c.members.map ChainMember.ownCancelCallbacks).flatten

/-! ## tryCatch (src/utils/tryCatch/tryCatch.ts lines 34-62) -/

/-- The `exceptionHandlingType` values accepted by the wrappers:
`'error' | 'warn' | 'log' | 'ignore'`. -/
inductive Severity where
  | error : Severity
  | warn : Severity
  | log : Severity
  | ignore : Severity
deriving DecidableEq

/-- Result of invoking a synchronous callback: it returns a value or it
throws. -/
inductive CallResult (ε α : Type) where
  | returns (v : α) : CallResult ε α
  | throws (e : ε) : CallResult ε α
deriving DecidableEq

/-- The `TTryCatchCallbackConfig` argument of `tryCatch`. Absent fields
are modelled as `none`; in `defaultResult`, `none` also stands for the
JavaScript `null` the destructuring default supplies, which is
observably the same. -/
structure TryCatchConfig (α : Type) where
  defaultResult : Option α
  exceptionHandlingType : Option Severity
deriving DecidableEq

/-- The `{error, result}` record `tryCatch` returns; `none` models
JavaScript null in either field. -/
structure TTryCatchResult (ε α : Type) where
  error : Option ε
  result : Option α
deriving DecidableEq

/-- Embedding of `tryCatch` (tryCatch.ts lines 34-62). The callback's
synchronous behavior is the `CallResult`; the second component of the
result is the list of console emissions
(`console[exceptionHandlingType](error)`), each tagged with its
severity. Destructuring defaults: `defaultResult = null`,
`exceptionHandlingType = 'error'`. -/
def tryCatch (cb : CallResult ε α) (config : TryCatchConfig α) :
    TTryCatchResult ε α × List (Severity × ε) :=
  let errorResult := config.defaultResult
  let sev := config.exceptionHandlingType.getD .error
  match cb with
  | .returns r => (⟨none, some r⟩, [])
  | .throws e =>
      (⟨some e, errorResult⟩, if sev = .ignore then [] else [(sev, e)])

/-! ## tryCatchPromise (src/utils/tryCatch/tryCatch.ts lines 106-207)

The function's dispatch, its catch block, its `logger`, and the usage
check on a thunk returning undefined are translated from the source.
The awaited settlement of a cancelable promise, and the conversion
layer `toCancelablePromise` (whose implementation is missing from src),
are modelled as marked below. -/

/-- Eventual settlement of an awaitable: fulfilled with a value or
rejected with a reason. -/
inductive POutcome (ε α : Type) where
  | fulfilled (v : α) : POutcome ε α
  | rejected (e : ε) : POutcome ε α
deriving DecidableEq

/-- Model of a cancelable promise as `tryCatchPromise` consumes one: the
eventual settlement of its underlying awaitable together with the value
its `status` field reads once it has settled (`canceled` futures settle
the underlying awaitable as rejected while `status` reads canceled). -/
structure CPModel (ε α : Type) where
  outcome : POutcome ε α
  finalStatus : TPromiseStatus
deriving DecidableEq

/-- A value the conversion layer accepts from a thunk: a native
awaitable (with its eventual settlement) or a plain value. -/
inductive ConvSource (ε α : Type) where
  | nativeP (o : POutcome ε α) : ConvSource ε α
  | plainVal (v : α) : ConvSource ε α
deriving DecidableEq

/-- Modelled from the spec: `toCancelablePromise` (spec section 4.4) —
its implementation is missing from src (only the .d.ts declaration is
present). A native awaitable is wrapped in lockstep with its
settlement; a plain value yields an already-resolved cancelable
promise. -/
def toCancelablePromise : ConvSource ε α → CPModel ε α
  | .nativeP (.fulfilled v) => ⟨.fulfilled v, .resolved⟩
  | .nativeP (.rejected e) => ⟨.rejected e, .rejected⟩
  | .plainVal v => ⟨.fulfilled v, .resolved⟩

/-- What invoking the thunk passed to `tryCatchPromise` returns (when it
does not throw): undefined, a marked cancelable promise, a native
awaitable, or a plain value. -/
inductive ThunkRet (ε α : Type) where
  | undef : ThunkRet ε α
  | cancelable (p : CPModel ε α) : ThunkRet ε α
  | conv (s : ConvSource ε α) : ThunkRet ε α
deriving DecidableEq

/-- A `source` argument of `tryCatchPromise`, partitioned by the
dispatch the function performs: a value carrying the cancelable marker;
a callable thunk (with its invocation behavior); or a value that is
neither marked nor callable — e.g. a native Promise instance passed
directly — for which the call `source()` throws the given TypeError. -/
inductive TCSource (ε α : Type) where
  | cancelable (p : CPModel ε α) : TCSource ε α
  | thunk (call : CallResult ε (ThunkRet ε α)) : TCSource ε α
  | nonCallable (typeErr : ε) : TCSource ε α
deriving DecidableEq

/-- The `TTryCatchCallbackPromiseConfig` argument. Absent fields are
`none`; defaults applied by the source's destructuring are
`defaultResult = null`, `exceptionHandlingType = 'error'`,
`ignoreCancel = true`. -/
structure TryCatchPromiseConfig (α : Type) where
  defaultResult : Option α
  exceptionHandlingType : Option Severity
  ignoreCancel : Option Bool
deriving DecidableEq

/-- The `{error, result, promise}` record `tryCatchPromise` resolves
with; `none` models JavaScript null in each field. -/
structure TTryCatchPromiseRecord (ε α : Type) where
  error : Option ε
  result : Option α
  promise : Option (CPModel ε α)
deriving DecidableEq

/-- The awaited behavior of the promise `tryCatchPromise` returns:
either it resolves with a record (paired with the list of console
emissions the run produced), or it rejects with a usage Error carrying
the given message. -/
inductive TCPResult (ε α : Type) where
  | resolvedTo (rec : TTryCatchPromiseRecord ε α) (emitted : List (Severity × ε)) :
      TCPResult ε α
  | rejectedUsage (msg : String) : TCPResult ε α
deriving DecidableEq

/-- The message of the Error rejected when a thunk returns undefined
(tryCatch.ts lines 171-175). -/
def usageErrorMessage : String :=
  "tryCatchPromise: callback parameter must return a value () => promise"

/-- Embedding of the `logger` closure (tryCatch.ts lines 129-138): no
emission when `exceptionHandlingType` is `'ignore'`, or when the
normalized promise's status reads canceled and `ignoreCancel` holds
(`status` is `none` when the local `promise` variable is still null);
otherwise one console emission at the configured severity. -/
def loggerEmits (config : TryCatchPromiseConfig α) (status : Option TPromiseStatus)
    (e : ε) : List (Severity × ε) :=
  let sev := config.exceptionHandlingType.getD .error
  let ignoreCancel := config.ignoreCancel.getD true
  if sev = .ignore then []
  else if status = some .canceled && ignoreCancel then []
  else [(sev, e)]

/-- Awaiting the normalized promise through the
`promise.then(result => ...).catch(error => ...)` chain of
tryCatch.ts lines 147-161 and 183-197: fulfillment yields
`{error: null, result, promise}`; rejection runs the logger and yields
`{error, result: defaultResult, promise}`. The settlement itself is the
`CPModel`'s modelled outcome. -/
def settleWith (config : TryCatchPromiseConfig α) (p : CPModel ε α) : TCPResult ε α :=
  match p.outcome with
  | .fulfilled r => .resolvedTo ⟨none, some r, some p⟩ []
  | .rejected e =>
      .resolvedTo ⟨some e, config.defaultResult, some p⟩
        (loggerEmits config (some p.finalStatus) e)

/-- Embedding of `tryCatchPromise` (tryCatch.ts lines 106-207).
Dispatch: a marked cancelable source is awaited directly; otherwise the
source is invoked as a thunk — a synchronous throw (including the
TypeError from invoking a non-callable source) lands in the catch
block, which resolves with `{error, result: defaultResult,
promise: null}` after running the logger; a thunk returning undefined
rejects with the usage Error; any other thunk return is normalized
(identity on marked values, `toCancelablePromise` otherwise) and
awaited. -/
def tryCatchPromise (source : TCSource ε α) (config : TryCatchPromiseConfig α) :
    TCPResult ε α :=
  match source with
  | .cancelable p => settleWith config p
  | .thunk (.throws e) =>
      .resolvedTo ⟨some e, config.defaultResult, none⟩ (loggerEmits config none e)
  | .thunk (.returns .undef) => .rejectedUsage usageErrorMessage
  | .thunk (.returns (.cancelable p)) => settleWith config p
  | .thunk (.returns (.conv s)) => settleWith config (toCancelablePromise s)
  | .nonCallable te =>
      .resolvedTo ⟨some te, config.defaultResult, none⟩ (loggerEmits config none te)

/-- Specification-side normalization map (spec section 4.5 read with
4.4), for the refinement stated in claim C4: the cancelable future a
source is normalized to, when the spec deems the source acceptable. A
marked cancelable source or a thunk returning a marked cancelable is
taken as is; a thunk returning a native awaitable or plain value goes
through the conversion layer; a throwing thunk, a thunk returning
undefined, and a non-callable source normalize to nothing. -/
def normalizeSource : TCSource ε α → Option (CPModel ε α)
  | .cancelable p => some p
  | .thunk (.returns (.cancelable p)) => some p
  | .thunk (.returns (.conv s)) => some (toCancelablePromise s)
  | _ => none

/-! ## Group scheduler result recording

`groupAsCancelablePromise` appears in the repository only as a .d.ts
declaration; the result-recording discipline below is modelled from the
spec (sections 3 and 4.7): an aggregated-results array indexed by
original position, written once per member settlement at the member's
original index, members settling in an arbitrary completion order. -/

/-- Modelled from the spec: one settlement event of the group scheduler.
Member `j` settled; its settlement result (here, the `j`-th source's
settlement value) is recorded at original index `j` of the results
array. An out-of-range index records nothing. -/
def recordSettlement (sources : List α) (acc : List (Option α)) (j : Nat) :
    List (Option α) :=
  match sources.get? j with
  | some v => acc.set j (some v)
  | none => acc

/-- Modelled from the spec: the aggregated results array of one
scheduler invocation over `sources`, after the members settled in
completion order `order` (a list of original indices). Slots start
unfilled and each settlement writes its member's result at the member's
original index. -/
def groupResults (sources : List α) (order : List Nat) : List (Option α) :=
  order.foldl (recordSettlement sources) (List.replicate sources.length none)

/-- Number of occurrences of `b` in `l` (used to state that callbacks
fire exactly as many times as they were registered). -/
def countOcc {β : Type} [DecidableEq β] : List β → β → Nat
  | [], _ => 0
  | x :: rest, b => (if x = b then 1 else 0) + countOcc rest b

/-- A concrete three-member derivation chain (all pending; member 0 is
the origin, members 1 and 2 derived from it) used by the witnesses. -/
def sampleChain : Chain :=
  ⟨[⟨.pending, [10]⟩, ⟨.pending, [11, 12]⟩, ⟨.pending, [13]⟩]⟩

/-! ## Helper lemmas -/

theorem applyOp_of_settled (s : FutureState α) (op : SettleOp α)
    (h : s.status ≠ .pending) : applyOp s op = s := by
  unfold applyOp
  simp [h]

theorem applyOps_of_settled (s : FutureState α) (ops : List (SettleOp α))
    (h : s.status ≠ .pending) : applyOps s ops = s := by
  induction ops with
  | nil => rfl
  | cons op rest ih =>
      unfold applyOps
      rw [List.foldl_cons, applyOp_of_settled s op h]
      exact ih

theorem isCancelablePromise_eq_marker (copy : Nat) (v : JSValue) :
    isCancelablePromise copy v = .ok (hasMarker copy v) := by
  cases v with
  | undefined => rfl
  | null => rfl
  | bool b => rfl
  | num n => rfl
  | str s => rfl
  | obj props =>
      simp only [isCancelablePromise, jsGetSymOpt, jsGetSym, hasMarker]
      cases findSym props (promise_identifier copy) <;> rfl

theorem countOcc_map_pair {α : Type} [DecidableEq α] (l : List Nat) (r : α) (cb : Nat) :
    countOcc (l.map (fun x => (x, r))) (cb, r) = countOcc l cb := by
  induction l with
  | nil => rfl
  | cons a rest ih =>
      have hiff : ((a, r) = (cb, r)) ↔ (a = cb) := by simp
      show (if (a, r) = (cb, r) then 1 else 0) + countOcc (rest.map (fun x => (x, r))) (cb, r) =
        (if a = cb then 1 else 0) + countOcc rest cb
      rw [ih, if_congr hiff rfl rfl]

theorem settleWith_spec (config : TryCatchPromiseConfig α) (p : CPModel ε α) :
    ∃ rec emitted, settleWith config p = .resolvedTo rec emitted ∧
      rec.promise = some p ∧
      (∀ r, p.outcome = .fulfilled r → rec.error = none ∧ rec.result = some r) ∧
      (∀ e, p.outcome = .rejected e →
        rec.error = some e ∧ rec.result = config.defaultResult) := by
  cases hp : p.outcome with
  | fulfilled r0 =>
      refine ⟨⟨none, some r0, some p⟩, [], ?_, rfl, ?_, ?_⟩
      · unfold settleWith
        rw [hp]
      · intro r hr
        cases hr
        exact ⟨rfl, rfl⟩
      · intro e he
        exact POutcome.noConfusion he
  | rejected e0 =>
      refine ⟨⟨some e0, config.defaultResult, some p⟩,
        loggerEmits config (some p.finalStatus) e0, ?_, rfl, ?_, ?_⟩
      · unfold settleWith
        rw [hp]
      · intro r hr
        exact POutcome.noConfusion hr
      · intro e he
        cases he
        exact ⟨rfl, rfl⟩

theorem recordSettlement_get_other (sources : List α) (acc : List (Option α))
    (i j : Nat) (h : j ≠ i) :
    (recordSettlement sources acc j).get? i = acc.get? i := by
  unfold recordSettlement
  cases hs : sources.get? j with
  | none => rfl
  | some v => exact List.get?_set_ne _ _ h

theorem recordSettlement_preserves (sources : List α) (acc : List (Option α))
    (i j : Nat) (v : α) (hv : sources.get? i = some v)
    (h : acc.get? i = some (some v)) :
    (recordSettlement sources acc j).get? i = some (some v) := by
  by_cases hij : j = i
  · subst hij
    unfold recordSettlement
    rw [hv]
    have hlen : j < acc.length := by
      rcases List.get?_eq_some.mp h with ⟨hl, _⟩
      exact hl
    rw [List.get?_set_eq_of_lt _ hlen]
  · rw [recordSettlement_get_other sources acc i j hij]
    exact h

theorem recordSettlement_length (sources : List α) (acc : List (Option α))
    (j : Nat) : (recordSettlement sources acc j).length = acc.length := by
  unfold recordSettlement
  cases hs : sources.get? j with
  | none => rfl
  | some v => exact List.length_set acc j (some v)

theorem recordSettlement_writes (sources : List α) (acc : List (Option α))
    (i : Nat) (v : α) (hv : sources.get? i = some v)
    (hlen : acc.length = sources.length) :
    (recordSettlement sources acc i).get? i = some (some v) := by
  unfold recordSettlement
  rw [hv]
  have hi : i < acc.length := by
    rcases List.get?_eq_some.mp hv with ⟨hl, _⟩
    omega
  rw [List.get?_set_eq_of_lt _ hi]

theorem foldl_record_preserves (sources : List α) (order : List Nat)
    (acc : List (Option α)) (i : Nat) (v : α) (hv : sources.get? i = some v)
    (h : acc.get? i = some (some v)) :
    (order.foldl (recordSettlement sources) acc).get? i = some (some v) := by
  induction order generalizing acc with
  | nil => exact h
  | cons j rest ih =>
      rw [List.foldl_cons]
      exact ih _ (recordSettlement_preserves sources acc i j v hv h)

theorem foldl_record_length (sources : List α) (order : List Nat)
    (acc : List (Option α)) :
    (order.foldl (recordSettlement sources) acc).length = acc.length := by
  induction order generalizing acc with
  | nil => rfl
  | cons j rest ih =>
      rw [List.foldl_cons, ih, recordSettlement_length]

theorem foldl_record_hits (sources : List α) (order : List Nat)
    (acc : List (Option α)) (i : Nat) (v : α) (hv : sources.get? i = some v)
    (hlen : acc.length = sources.length) (hmem : i ∈ order) :
    (order.foldl (recordSettlement sources) acc).get? i = some (some v) := by
  induction order generalizing acc with
  | nil => cases hmem
  | cons j rest ih =>
      rw [List.foldl_cons]
      rcases List.mem_cons.mp hmem with hji | hrest
      · subst hji
        exact foldl_record_preserves sources rest _ i v hv
          (recordSettlement_writes sources acc i v hv hlen)
      · exact ih _ (by rw [recordSettlement_length]; exact hlen) hrest

/-! ## Claim theorems -/

/-- C1: for every derivation chain and every member `i` of the chain
that is still pending, canceling member `i` with reason `r` sets the
status of every chain member to canceled, invokes every member's
registered cancel callbacks exactly once (each registration fires once)
with that reason, and the propagation is symmetric — `i` is arbitrary,
so it reaches parents (earlier members) as well as children (later
members); a subsequent cancel anywhere in the chain is a no-op that
fires nothing. -/
theorem claim_C1 (α : Type) [DecidableEq α] (c : Chain) (i : Nat) (r : α)
    (m : ChainMember) (hget : c.members.get? i = some m) (hp : m.status = .pending) :
    (∀ m', m' ∈ (cancelChain c i r).1.members → m'.status = .canceled) ∧
    (∀ cb : Nat, countOcc (cancelChain c i r).2 (cb, r) =
      countOcc (registeredCallbacks c) cb) ∧
    (∀ p, p ∈ (cancelChain c i r).2 → p.2 = r) ∧
    (∀ (j : Nat) (r2 : α), cancelChain (cancelChain c i r).1 j r2 =
      ((cancelChain c i r).1, [])) := by
  have hcc : cancelChain c i r = (⟨c.members.map canceledMember⟩, chainCancelLog c r) := by
    unfold cancelChain
    rw [hget]
    simp [hp]
  refine ⟨?_, ?_, ?_, ?_⟩
  · intro m' hm'
    rw [hcc] at hm'
    rcases List.mem_map.mp hm' with ⟨m0, _, hEq⟩
    rw [← hEq]
    rfl
  · intro cb
    rw [hcc]
    exact countOcc_map_pair (registeredCallbacks c) r cb
  · intro p hpmem
    rw [hcc] at hpmem
    rcases List.mem_map.mp hpmem with ⟨cb, _, hEq⟩
    rw [← hEq]
  · intro j r2
    rw [hcc]
    unfold cancelChain
    cases hj : (List.map canceledMember c.members).get? j with
    | none => rfl
    | some m2 =>
        have hm2 : m2 ∈ List.map canceledMember c.members := List.get?_mem hj
        rcases List.mem_map.mp hm2 with ⟨m0, _, hEq⟩
        have hcanc : m2.status = .canceled := by
          rw [← hEq]
          rfl
        simp [hcanc]

/-- Witness for C1: canceling the middle member of a concrete
three-member chain (so propagation reaches the parent at index 0 and
the child at index 2) fires callback 11 exactly once with reason 7, and
a second cancel at the parent is a no-op. -/
theorem claim_C1_witness :
    countOcc (cancelChain sampleChain 1 (7 : Nat)).2 (11, 7) =
      countOcc (registeredCallbacks sampleChain) 11 ∧
    cancelChain (cancelChain sampleChain 1 (7 : Nat)).1 0 (9 : Nat) =
      ((cancelChain sampleChain 1 (7 : Nat)).1, []) := by
  have h := claim_C1 Nat sampleChain 1 7 ⟨.pending, [11, 12]⟩ rfl rfl
  exact ⟨h.2.1 11, h.2.2.2 0 9⟩

/-- C2: the status of a cancelable future is monotonic — a fresh future
is pending, a settling call from pending transitions to exactly the
corresponding terminal status (resolved, rejected or canceled), and
once the status has left pending no later sequence of resolve, reject
or cancel calls changes the state again. -/
theorem claim_C2 (α : Type) :
    (initialFuture α).status = .pending ∧
    (∀ op : SettleOp α, (applyOp (initialFuture α) op).status = terminalOf op) ∧
    (∀ (s : FutureState α) (ops : List (SettleOp α)),
      s.status ≠ .pending → applyOps s ops = s) := by
  refine ⟨rfl, ?_, ?_⟩
  · intro op
    cases op <;> rfl
  · intro s ops h
    exact applyOps_of_settled s ops h

/-- Witness for C2: a resolved future is unchanged by a later cancel
and reject. -/
theorem claim_C2_witness :
    applyOps (⟨.resolved, some (.value 1)⟩ : FutureState Nat)
      [SettleOp.cancel 2, SettleOp.reject 3] = ⟨.resolved, some (.value 1)⟩ :=
  (claim_C2 Nat).2.2 ⟨.resolved, some (.value 1)⟩ [SettleOp.cancel 2, SettleOp.reject 3]
    (by decide)

/-- C3: canceling a pending future with reason `r` settles the
underlying awaitable as rejected with `r` — so a catch handler attached
to it receives `r` — while the status reads canceled, never rejected,
and stays canceled under any later settling calls. -/
theorem claim_C3 (α : Type) (s : FutureState α) (r : α) (h : s.status = .pending) :
    (applyOp s (SettleOp.cancel r)).status = .canceled ∧
    (applyOp s (SettleOp.cancel r)).status ≠ .rejected ∧
    catchObserves (applyOp s (SettleOp.cancel r)) = some r ∧
    (∀ ops : List (SettleOp α),
      (applyOps (applyOp s (SettleOp.cancel r)) ops).status = .canceled) := by
  have hc : applyOp s (SettleOp.cancel r) = ⟨.canceled, some (.rejectedWith r)⟩ := by
    unfold applyOp
    rw [h]
    simp
  refine ⟨by rw [hc], by rw [hc]; simp, by rw [hc]; rfl, ?_⟩
  intro ops
  rw [hc, applyOps_of_settled _ ops (by simp)]

/-- Witness for C3: the spec scenario — a future canceled synchronously
inside its constructor callback with reason 'user-abort' reads status
canceled and its catch handler receives 'user-abort'. -/
theorem claim_C3_witness :
    (applyOp (initialFuture String) (SettleOp.cancel "user-abort")).status = .canceled ∧
    catchObserves (applyOp (initialFuture String) (SettleOp.cancel "user-abort")) =
      some "user-abort" := by
  have h := claim_C3 String (initialFuture String) "user-abort" rfl
  exact ⟨h.1, h.2.2.1⟩

/-- C5 counterexample: the claim asserts the check works across
independently loaded copies of the library. It does not: the marker is
created by a module-level `Symbol('promise_identifier')` call, which
yields a fresh, distinct symbol in each loaded copy. An instance
produced by copy 1 is recognized by copy 1's own check but rejected by
copy 0's check. -/
theorem claim_C5_counterexample :
    isCancelablePromise 1 (mkCancelableInstance 1) = .ok true ∧
    isCancelablePromise 0 (mkCancelableInstance 1) = .ok false := by
  exact ⟨by decide, by decide⟩

/-- C5 amended: isCancelablePromise, as evaluated by one loaded copy of
the library, returns true exactly when the value carries a truthy
property at that copy's own marker symbol — true for instances produced
by that copy's constructors/statics, false for a plain native future,
an arbitrary object, and an instance produced by a different
independently loaded copy (whose marker is a distinct symbol). -/
theorem claim_C5 :
    (∀ copy v, isCancelablePromise copy v = .ok (hasMarker copy v)) ∧
    (∀ copy, isCancelablePromise copy (mkCancelableInstance copy) = .ok true) ∧
    (∀ copy, isCancelablePromise copy nativePromiseObj = .ok false) ∧
    (∀ copy, isCancelablePromise copy arbitraryObj = .ok false) ∧
    (∀ c1 c2, c1 ≠ c2 → isCancelablePromise c1 (mkCancelableInstance c2) = .ok false) := by
  refine ⟨isCancelablePromise_eq_marker, ?_, ?_, ?_, ?_⟩
  · intro copy
    rw [isCancelablePromise_eq_marker]
    simp [hasMarker, mkCancelableInstance, findSym, truthy]
  · intro copy
    rw [isCancelablePromise_eq_marker]
    rfl
  · intro copy
    rw [isCancelablePromise_eq_marker]
    simp [hasMarker, arbitraryObj, findSym, promise_identifier, JSSymbol.mk.injEq]
  · intro c1 c2 hne
    rw [isCancelablePromise_eq_marker]
    have hne2 : c2 ≠ c1 := fun hEq => hne hEq.symm
    simp [hasMarker, mkCancelableInstance, findSym, promise_identifier,
      JSSymbol.mk.injEq, hne2]

/-- Witness for C5: copy 0's check rejects an instance created by the
independently loaded copy 1. -/
theorem claim_C5_witness :
    isCancelablePromise 0 (mkCancelableInstance 1) = .ok false :=
  claim_C5.2.2.2.2 0 1 (by decide)

/-- C9: isCancelablePromise is total at the public interface — it never
throws (the marker lookup is guarded by optional chaining, while the
unguarded lookup on null does throw) and returns false for null,
undefined, and any value without a truthy marker property, the lookup
result being coerced to a boolean. -/
theorem claim_C9 :
    (∀ copy v, ∃ b, isCancelablePromise copy v = .ok b) ∧
    (∀ copy, isCancelablePromise copy JSValue.null = .ok false) ∧
    (∀ copy, isCancelablePromise copy JSValue.undefined = .ok false) ∧
    (∀ copy v, hasMarker copy v = false → isCancelablePromise copy v = .ok false) ∧
    (∀ copy, jsGetSym JSValue.null (promise_identifier copy) =
      .jsError "TypeError: Cannot read properties of null") := by
  refine ⟨fun copy v => ⟨hasMarker copy v, isCancelablePromise_eq_marker copy v⟩,
    fun copy => rfl, fun copy => rfl, ?_, fun copy => rfl⟩
  intro copy v h
  rw [isCancelablePromise_eq_marker, h]

/-- Witness for C9: a plain native promise object has no marker and the
check returns false on it. -/
theorem claim_C9_witness :
    hasMarker 0 nativePromiseObj = false ∧
    isCancelablePromise 0 nativePromiseObj = .ok false :=
  ⟨rfl, claim_C9.2.2.2.1 0 nativePromiseObj rfl⟩

/-- C6: tryCatch runs the callback synchronously (the CallResult is its
synchronous behavior); on a return of `r` it yields
`{error: null, result: r}` with no console emission; on a throw of `e`
it yields `{error: e, result: config.defaultResult ?? null}` and emits
`e` at the configured severity (default 'error') unless the severity is
'ignore'. -/
theorem claim_C6 (ε α : Type) (config : TryCatchConfig α) (r : α) (e : ε) :
    tryCatch (CallResult.returns r : CallResult ε α) config = (⟨none, some r⟩, []) ∧
    tryCatch (CallResult.throws e : CallResult ε α) config =
      (⟨some e, config.defaultResult⟩,
        if config.exceptionHandlingType.getD .error = .ignore then []
        else [(config.exceptionHandlingType.getD .error, e)]) :=
  ⟨rfl, rfl⟩

/-- C4 counterexample: a native (unmarked, non-callable) future passed
directly as the source is not normalized to a cancelable future. It
fails the marker check, is then invoked as a thunk, that invocation
throws a TypeError, and tryCatchPromise resolves to a record with the
TypeError as error and a null promise field — not a record whose
promise field is the normalized source, contrary to the claim's
"(cancelable or native)". -/
theorem claim_C4_counterexample :
    tryCatchPromise
      (TCSource.nonCallable "TypeError: source is not a function" : TCSource String Nat)
      ⟨none, none, none⟩ =
    TCPResult.resolvedTo ⟨some "TypeError: source is not a function", none, none⟩
      [(Severity.error, "TypeError: source is not a function")] := by
  decide

/-- C4 amended: for every source the code actually normalizes — a
marked cancelable future, or a thunk returning a marked cancelable
future, a native awaitable, or a plain value — tryCatchPromise awaits
the normalized cancelable future and resolves to a record whose promise
field is exactly that normalized future, with error/result reflecting
its settlement; a native future passed directly is not normalized (its
invocation as a thunk throws, see the counterexample). -/
theorem claim_C4 (ε α : Type) (source : TCSource ε α)
    (config : TryCatchPromiseConfig α) (p : CPModel ε α)
    (h : normalizeSource source = some p) :
    ∃ rec emitted, tryCatchPromise source config = .resolvedTo rec emitted ∧
      rec.promise = some p ∧
      (∀ r, p.outcome = .fulfilled r → rec.error = none ∧ rec.result = some r) ∧
      (∀ e, p.outcome = .rejected e →
        rec.error = some e ∧ rec.result = config.defaultResult) := by
  cases source with
  | cancelable p0 =>
      simp only [normalizeSource, Option.some.injEq] at h
      subst h
      exact settleWith_spec config p0
  | thunk call =>
      cases call with
      | throws e => simp [normalizeSource] at h
      | returns ret =>
          cases ret with
          | undef => simp [normalizeSource] at h
          | cancelable p0 =>
              simp only [normalizeSource, Option.some.injEq] at h
              subst h
              exact settleWith_spec config p0
          | conv s =>
              simp only [normalizeSource, Option.some.injEq] at h
              subst h
              exact settleWith_spec config (toCancelablePromise s)
  | nonCallable te => simp [normalizeSource] at h

/-- Witness for C4: a thunk returning the plain value 5 is normalized
to an already-resolved cancelable future, which the resulting record's
promise field carries. -/
theorem claim_C4_witness :
    ∃ rec emitted,
      tryCatchPromise
        (TCSource.thunk (.returns (.conv (.plainVal 5))) : TCSource String Nat)
        ⟨none, none, none⟩ = .resolvedTo rec emitted ∧
      rec.promise = some ⟨.fulfilled 5, .resolved⟩ := by
  obtain ⟨rec, emitted, h1, h2, _, _⟩ :=
    claim_C4 String Nat (TCSource.thunk (.returns (.conv (.plainVal 5))))
      ⟨none, none, none⟩ ⟨.fulfilled 5, .resolved⟩ rfl
  exact ⟨rec, emitted, h1, h2⟩

/-- C7: a thunk whose invocation returns undefined makes tryCatchPromise
fail fatally — it rejects with the usage Error rather than resolving to
an `{error, result, promise}` record. -/
theorem claim_C7 (ε α : Type) (config : TryCatchPromiseConfig α) :
    tryCatchPromise (TCSource.thunk (CallResult.returns ThunkRet.undef) : TCSource ε α)
      config = TCPResult.rejectedUsage usageErrorMessage :=
  rfl

/-- C10: tryCatchPromise never throws synchronously. When the source is
neither a marked cancelable future nor a callable thunk (its invocation
throws a TypeError), or when the thunk itself throws synchronously, the
exception is caught and the call resolves to
`{error: <the thrown value>, result: config.defaultResult ?? null,
promise: null}` (after the logger ran with a null promise) instead of
propagating the throw. -/
theorem claim_C10 (ε α : Type) (config : TryCatchPromiseConfig α) (e : ε) :
    tryCatchPromise (TCSource.nonCallable e : TCSource ε α) config =
      TCPResult.resolvedTo ⟨some e, config.defaultResult, none⟩
        (loggerEmits config none e) ∧
    tryCatchPromise (TCSource.thunk (CallResult.throws e) : TCSource ε α) config =
      TCPResult.resolvedTo ⟨some e, config.defaultResult, none⟩
        (loggerEmits config none e) :=
  ⟨rfl, rfl⟩

/-- C8: for every source list and every completion order of the
scheduler's member tasks, the `i`-th slot of the aggregated results
array holds the settlement result of `sources[i]`, for every index `i`
that settled — positional correspondence is independent of completion
order. -/
theorem claim_C8 (α : Type) (sources : List α) (order : List Nat) (i : Nat) (v : α)
    (hv : sources.get? i = some v) (hmem : i ∈ order) :
    (groupResults sources order).get? i = some (some v) := by
  unfold groupResults
  exact foldl_record_hits sources order _ i v hv (List.length_replicate _ _) hmem

/-- Witness for C8: with three sources settling out of order (member 1
first, then 2, then 0), slot 0 still holds the first source's result. -/
theorem claim_C8_witness :
    (groupResults ["a", "b", "c"] [1, 2, 0]).get? 0 = some (some "a") :=
  claim_C8 String ["a", "b", "c"] [1, 2, 0] 0 "a" rfl (by decide)
